import Mathlib

/-!
Verification of the search and evaluation core of a minimal traditional
chess engine (files `evaluate.cpp`, `search.cpp`).  The Position / move
generation model is an external collaborator of the core; it is represented
here by an abstract interface (`PosAPI`) supplying exactly the operations
the core consumes.  The wall clock polled by the time check is represented
by an oracle stream of booleans (one entry per clock sample, telling
whether the elapsed time had reached the budget at that sample).
-/

set_option linter.unusedVariables false

/-- Squares are integers `0..63` (`a1 = 0`, `h8 = 63`), as in the engine's
`Square` enum. -/
abbrev Square := Nat

/-- The two piece colors. -/
inductive Color where
  | white
  | black
deriving DecidableEq, Repr

/-- Swap a color. -/
def Color.flip : Color → Color
  | .white => .black
  | .black => .white

/-- The six real piece types. -/
inductive PieceType where
  | pawn
  | knight
  | bishop
  | rook
  | queen
  | king
deriving DecidableEq, Repr

/-- Numeric piece-type index as in the engine's `types.h`
(`PAWN = 1`, …, `KING = 6`). -/
def PieceType.idx : PieceType → Nat
  | .pawn => 1
  | .knight => 2
  | .bishop => 3
  | .rook => 4
  | .queen => 5
  | .king => 6

/-- A piece is a color together with a piece type; `none` is `NO_PIECE`. -/
abbrev Piece := Option (Color × PieceType)

/-- A move: from-square, to-square and a tag distinguishing move kind and
promotion piece.  `Move` equality is total, as in the source. -/
structure Move where
  fromSq : Square
  toSq : Square
  tag : Nat
deriving DecidableEq, Repr

/-- The `Move::none()` sentinel. -/
def Move.none : Move := ⟨0, 0, 0⟩

/-- The interface the search core consumes from the external Position and
move-generation collaborators (`position.h` / `movegen.h`). -/
structure PosAPI (Pos : Type) where
  evaluate : Pos → Int
  checkers : Pos → Bool
  key : Pos → Nat
  is_draw : Pos → Nat → Bool
  rule50_count : Pos → Nat
  game_ply : Pos → Nat
  capture : Pos → Move → Bool
  legal : Pos → Move → Bool
  moved_piece : Pos → Move → Color × PieceType
  piece_on : Pos → Square → Piece
  do_move : Pos → Move → Pos
  do_null_move : Pos → Pos
  gen_legal : Pos → List Move
  gen_captures : Pos → List Move
  gen_evasions : Pos → List Move

/-- The MVV-LVA score matrix exactly as written in `search.cpp`
(row = piece type of the moved piece, column = piece type of the captured
piece; row 0 is `NO_PIECE_TYPE`, row 7 is `ALL_PIECES`). -/
def mvv_lva_scores : List (List Int) :=
  [[0, 0, 0, 0, 0, 0, 0, 0],
   [0, 15, 14, 13, 12, 11, 10, 0],
   [0, 25, 24, 23, 22, 21, 20, 0],
   [0, 35, 34, 33, 32, 31, 30, 0],
   [0, 45, 44, 43, 42, 41, 40, 0],
   [0, 55, 54, 53, 52, 51, 50, 0],
   [0, 0, 0, 0, 0, 0, 0, 0],
   [0, 0, 0, 0, 0, 0, 0, 0]]

/-- Entry `mvv_lva_scores[a][v]`. -/
def mvvEntry (a v : Nat) : Int := (mvv_lva_scores.getD a []).getD v 0

/-- `score_move` from `search.cpp`: ordering key of a move.  The killer
table and the history table (global state in the source) are passed
explicitly. -/
def score_move {Pos : Type} (api : PosAPI Pos) (pos : Pos)
    (killers : Nat → Move × Move) (history : Color → Square → Square → Int)
    (m tt_move : Move) (ply : Nat) : Int :=
  if m = tt_move then 1000000
  else
    let moved := api.moved_piece pos m
    let tsq := m.toSq
    let capScore : Option Int :=
      if api.capture pos m then
        match api.piece_on pos tsq with
        | some captured => some (900000 + mvvEntry moved.2.idx captured.2.idx * 1000)
        | none => Option.none
      else Option.none
    match capScore with
    | some v => v
    | Option.none =>
      if m = (killers ply).1 then 800000
      else if m = (killers ply).2 then 799000
      else history moved.1 m.fromSq tsq

/-- Piece values from `evaluate.cpp` (`PieceValues[PIECE_TYPE_NB]`). -/
def PieceValues : List Int := [0, 100, 320, 330, 500, 900, 0, 0]

/-- Material value of a piece type. -/
def pieceValue (pt : PieceType) : Int := PieceValues.getD pt.idx 0

/-- `PawnTable` from `evaluate.cpp` (index 0 = a1, …, 63 = h8). -/
def PawnTable : List Int :=
  [ 0,  0,  0,  0,  0,  0,  0,  0,
   50, 50, 50, 50, 50, 50, 50, 50,
   10, 10, 20, 30, 30, 20, 10, 10,
    5,  5, 10, 25, 25, 10,  5,  5,
    0,  0,  0, 20, 20,  0,  0,  0,
    5, -5,-10,  0,  0,-10, -5,  5,
    5, 10, 10,-20,-20, 10, 10,  5,
    0,  0,  0,  0,  0,  0,  0,  0]

/-- `KnightTable` from `evaluate.cpp`. -/
def KnightTable : List Int :=
  [-50,-40,-30,-30,-30,-30,-40,-50,
   -40,-20,  0,  0,  0,  0,-20,-40,
   -30,  0, 10, 15, 15, 10,  0,-30,
   -30,  5, 15, 20, 20, 15,  5,-30,
   -30,  0, 15, 20, 20, 15,  0,-30,
   -30,  5, 10, 15, 15, 10,  5,-30,
   -40,-20,  0,  5,  5,  0,-20,-40,
   -50,-40,-30,-30,-30,-30,-40,-50]

/-- `BishopTable` from `evaluate.cpp`. -/
def BishopTable : List Int :=
  [-20,-10,-10,-10,-10,-10,-10,-20,
   -10,  0,  0,  0,  0,  0,  0,-10,
   -10,  0,  5, 10, 10,  5,  0,-10,
   -10,  5,  5, 10, 10,  5,  5,-10,
   -10,  0, 10, 10, 10, 10,  0,-10,
   -10, 10, 10, 10, 10, 10, 10,-10,
   -10,  5,  0,  0,  0,  0,  5,-10,
   -20,-10,-10,-10,-10,-10,-10,-20]

/-- `RookTable` from `evaluate.cpp`. -/
def RookTable : List Int :=
  [ 0,  0,  0,  0,  0,  0,  0,  0,
    5, 10, 10, 10, 10, 10, 10,  5,
   -5,  0,  0,  0,  0,  0,  0, -5,
   -5,  0,  0,  0,  0,  0,  0, -5,
   -5,  0,  0,  0,  0,  0,  0, -5,
   -5,  0,  0,  0,  0,  0,  0, -5,
   -5,  0,  0,  0,  0,  0,  0, -5,
    0,  0,  0,  5,  5,  0,  0,  0]

/-- `QueenTable` from `evaluate.cpp`. -/
def QueenTable : List Int :=
  [-20,-10,-10, -5, -5,-10,-10,-20,
   -10,  0,  0,  0,  0,  0,  0,-10,
   -10,  0,  5,  5,  5,  5,  0,-10,
    -5,  0,  5,  5,  5,  5,  0, -5,
     0,  0,  5,  5,  5,  5,  0, -5,
   -10,  5,  5,  5,  5,  5,  0,-10,
   -10,  0,  5,  0,  0,  0,  0,-10,
   -20,-10,-10, -5, -5,-10,-10,-20]

/-- `KingMiddleTable` from `evaluate.cpp`. -/
def KingMiddleTable : List Int :=
  [-30,-40,-40,-50,-50,-40,-40,-30,
   -30,-40,-40,-50,-50,-40,-40,-30,
   -30,-40,-40,-50,-50,-40,-40,-30,
   -30,-40,-40,-50,-50,-40,-40,-30,
   -20,-30,-30,-40,-40,-30,-30,-20,
   -10,-20,-20,-20,-20,-20,-20,-10,
    20, 20,  0,  0,  0,  0, 20, 20,
    20, 30, 10,  0,  0, 10, 30, 20]

/-- `flip_square` from `evaluate.cpp`: vertical mirror of a square
(`s XOR SQ_A8`, and `SQ_A8 = 56`). -/
def flip_square (s : Square) : Square := s ^^^ 56

/-- The piece-square table used for a piece type. -/
def psqtTable : PieceType → List Int
  | .pawn => PawnTable
  | .knight => KnightTable
  | .bishop => BishopTable
  | .rook => RookTable
  | .queen => QueenTable
  | .king => KingMiddleTable

/-- `psqt_value` from `evaluate.cpp`: material plus piece-square bonus, from
the piece's perspective, negated for black pieces. -/
def psqt_value (pc : Color × PieceType) (s : Square) : Int :=
  let sq := match pc.1 with
    | .white => s
    | .black => flip_square s
  let value := pieceValue pc.2 + (psqtTable pc.2).getD sq 0
  match pc.1 with
  | .white => value
  | .black => -value

/-- The part of the Position state that `evaluate` reads: board occupancy
and side to move. -/
structure EvalPos where
  board : Square → Piece
  sideToMove : Color

/-- The loop body of `evaluate`: the contribution of one square (zero for
`NO_PIECE`). -/
def boardContrib (pos : EvalPos) (s : Square) : Int :=
  match pos.board s with
  | some pc => psqt_value pc s
  | Option.none => 0

/-- `evaluate` from `evaluate.cpp`: sum of `psqt_value` over all occupied
squares `SQ_A1 .. SQ_H8`, returned from the side to move's perspective. -/
def evaluate (pos : EvalPos) : Int :=
  let score := ∑ s ∈ Finset.range 64, boardContrib pos s
  match pos.sideToMove with
  | .white => score
  | .black => -score

/-- Modelled from the spec: the transformation `P ↦ P′` of the evaluator
symmetry property — colors swapped, board vertically mirrored, and the side
to move flipped. -/
def mirrorPos (p : EvalPos) : EvalPos :=
  { board := fun s =>
      match p.board (flip_square s) with
      | some pc => some (pc.1.flip, pc.2)
      | Option.none => Option.none
    sideToMove := p.sideToMove.flip }

/-- `VALUE_ZERO` from `types.h`. -/
def VALUE_ZERO : Int := 0

/-- `VALUE_DRAW` from `types.h`. -/
def VALUE_DRAW : Int := 0

/-- `VALUE_MATE` from `types.h`. -/
def VALUE_MATE : Int := 32000

/-- `VALUE_INFINITE` from `types.h`. -/
def VALUE_INFINITE : Int := 32001

/-- `MAX_PLY` from `types.h`. -/
def MAX_PLY : Nat := 246

/-- `VALUE_MATE_IN_MAX_PLY` from `types.h`. -/
def VALUE_MATE_IN_MAX_PLY : Int := VALUE_MATE - MAX_PLY

/-- `mated_in(ply) = -VALUE_MATE + ply` from `types.h`. -/
def mated_in (ply : Nat) : Int := -VALUE_MATE + ply

/-- A transposition-table entry (`TTEntry` in `search.cpp`);
`flag`: 0 = exact, 1 = lower, 2 = upper. -/
structure TTEntry where
  key : Nat
  best_move : Move
  value : Int
  depth : Int
  flag : Nat
deriving DecidableEq, Repr

/-- `TT_SIZE = 1 << 20` from `search.cpp`. -/
def TT_SIZE : Nat := 1 <<< 20

/-- The process-wide search state of `search.cpp`: node counter, stop flag,
killer table, history table and the transposition table.  `polls` is the
clock oracle: each time the wall clock is sampled, the head of `polls`
tells whether the elapsed time had reached the budget (an exhausted stream
means the budget is never reached).  `doMoves`, `abCalls`, `qsCalls` and
`ttStores` are ghost counters of calls to `do_move`, `alphabeta`,
`qsearch` and of transposition-table stores. -/
structure SState where
  nodeCount : Nat
  stopSearch : Bool
  polls : List Bool
  killers : Nat → Move × Move
  history : Color → Square → Square → Int
  tt : Nat → TTEntry
  doMoves : Nat
  abCalls : Nat
  qsCalls : Nat
  ttStores : Nat

/-- `should_stop` from `search.cpp`: every 2048 nodes sample the clock and
latch `stopSearch` when the budget is exhausted; return `stopSearch`. -/
def shouldStop (st : SState) : Bool × SState :=
  if st.nodeCount % 2048 = 0 then
    match st.polls with
    | [] => (st.stopSearch, st)
    | b :: rest =>
      let stop := st.stopSearch || b
      (stop, { st with stopSearch := stop, polls := rest })
  else (st.stopSearch, st)

/-- Index of the best remaining move: the first index holding the strictly
greatest score, as computed by the inner scan of the selection sort
(`if (scores[cur] > scores[best]) best = cur`). -/
def selectIdx (ms : List (Move × Int)) : Nat :=
  match ms with
  | [] => 0
  | x :: xs =>
    (xs.foldl
      (fun acc y =>
        if acc.2.1 < y.2 then (acc.2.2, y.2, acc.2.2 + 1)
        else (acc.1, acc.2.1, acc.2.2 + 1))
      ((0 : Nat), x.2, (1 : Nat))).1

/-- One step of the lazy selection sort: swap the best remaining move to the
front and return it together with the rest of the list (in the order the
array is left in after the swap). -/
def pickMax (ms : List (Move × Int)) : Option ((Move × Int) × List (Move × Int)) :=
  match ms with
  | [] => Option.none
  | x :: xs =>
    let j := selectIdx (x :: xs)
    if j = 0 then some (x, xs)
    else some ((x :: xs).getD j x, xs.set (j - 1) x)

mutual

/-- `qsearch` from `search.cpp`: quiescence search over captures (all
evasions when in check). -/
def qsearch {Pos : Type} (api : PosAPI Pos) (pos : Pos)
    (alpha beta : Int) (ply : Nat) (st0 : SState) : Int × SState :=
  let st := { st0 with qsCalls := st0.qsCalls + 1 }
  if hply : MAX_PLY - 1 < ply then (api.evaluate pos, st)
  else
    let st := { st with nodeCount := st.nodeCount + 1 }
    let stand_pat := api.evaluate pos
    if beta ≤ stand_pat then (beta, st)
    else
      let alpha1 := if alpha < stand_pat then stand_pat else alpha
      let moves := if api.checkers pos then api.gen_evasions pos else api.gen_captures pos
      let scored := moves.map (fun m => (m, score_move api pos st.killers st.history m Move.none ply))
      qLoop api pos beta ply (by omega) scored alpha1 st
termination_by (MAX_PLY + 1 - ply, 1, 0)
decreasing_by
  apply Prod.Lex.right
  apply Prod.Lex.left
  omega

/-- The move loop of `qsearch` (selection sort interleaved with search,
skipping illegal moves; returns `beta` on a cutoff, else the final
`alpha`).  The hypothesis `hp` records that the enclosing `qsearch` call
passed its ply guard. -/
def qLoop {Pos : Type} (api : PosAPI Pos) (pos : Pos)
    (beta : Int) (ply : Nat) (hp : ply ≤ MAX_PLY - 1) (ms : List (Move × Int))
    (alpha : Int) (st : SState) : Int × SState :=
  match hpk : pickMax ms with
  | Option.none => (alpha, st)
  | some (c, rest) =>
    let m := c.1
    if api.legal pos m = false then qLoop api pos beta ply hp rest alpha st
    else
      let st1 := { st with doMoves := st.doMoves + 1 }
      let r := qsearch api (api.do_move pos m) (-beta) (-alpha) (ply + 1) st1
      let score := -r.1
      if beta ≤ score then (beta, r.2)
      else
        let alpha2 := if alpha < score then score else alpha
        qLoop api pos beta ply hp rest alpha2 r.2
termination_by (MAX_PLY + 1 - ply, 0, ms.length)
decreasing_by
  · apply Prod.Lex.right
    apply Prod.Lex.right
    cases ms with
    | nil => simp [pickMax] at hpk
    | cons x xs =>
      simp only [pickMax] at hpk
      split at hpk
      · simp_all
      · have h2 : xs.set (selectIdx (x :: xs) - 1) x = rest := (Prod.mk.injEq _ _ _ _ ▸ Option.some.injEq _ _ ▸ hpk).2
        rw [← h2, List.length_set]
        simp
  · apply Prod.Lex.left
    omega
  · apply Prod.Lex.right
    apply Prod.Lex.right
    cases ms with
    | nil => simp [pickMax] at hpk
    | cons x xs =>
      simp only [pickMax] at hpk
      split at hpk
      · simp_all
      · have h2 : xs.set (selectIdx (x :: xs) - 1) x = rest := (Prod.mk.injEq _ _ _ _ ▸ Option.some.injEq _ _ ▸ hpk).2
        rw [← h2, List.length_set]
        simp

end

/-- The guard of the null-move pruning step in `alphabeta`
(`doNull && !inCheck && depth >= 3 && ply > 0`). -/
def NullCond {Pos : Type} (api : PosAPI Pos) (pos : Pos)
    (depth : Int) (ply : Nat) (doNull : Bool) : Bool :=
  doNull && !(api.checkers pos) && decide (3 ≤ depth) && decide (0 < ply)

/-- The transposition-table probe of `alphabeta` (`search.cpp`, the block
reading `tt[ttIndex]`): returns an optional cutoff value together with the
`ttMove` retained for move ordering. -/
def ttProbe (tte : TTEntry) (posKey : Nat) (depth : Int)
    (alpha beta : Int) : Option Int × Move :=
  if tte.key = posKey ∧ depth ≤ tte.depth then
    if tte.flag = 0 then (some tte.value, tte.best_move)
    else if tte.flag = 1 ∧ beta ≤ tte.value then (some beta, tte.best_move)
    else if tte.flag = 2 ∧ tte.value ≤ alpha then (some alpha, tte.best_move)
    else (Option.none, tte.best_move)
  else if tte.key = posKey then (Option.none, tte.best_move)
  else (Option.none, Move.none)

/-- Bound-flag derivation at a transposition-table store
(`search.cpp` lines after the move loop): 2 = upper, 1 = lower, 0 = exact. -/
def flagOf (bestScore originalAlpha beta : Int) : Nat :=
  if bestScore ≤ originalAlpha then 2
  else if beta ≤ bestScore then 1
  else 0

/-- The transposition-table store of `alphabeta`: unconditionally overwrite
slot `posKey % TT_SIZE`. -/
def ttStore (st : SState) (posKey : Nat) (bestMove : Move)
    (bestScore : Int) (depth : Int) (originalAlpha beta : Int) : SState :=
  let e : TTEntry := ⟨posKey, bestMove, bestScore, depth, flagOf bestScore originalAlpha beta⟩
  { st with
    tt := fun i => if i = posKey % TT_SIZE then e else st.tt i,
    ttStores := st.ttStores + 1 }

mutual

/-- `alphabeta` from `search.cpp`: negamax alpha-beta with transposition
table, null-move pruning and move ordering. -/
def alphabeta {Pos : Type} (api : PosAPI Pos) (pos : Pos)
    (depth : Int) (alpha beta : Int) (ply : Nat) (doNull : Bool)
    (st0 : SState) : Int × SState :=
  let stE := { st0 with abCalls := st0.abCalls + 1 }
  let s0 := shouldStop stE
  if s0.1 then (VALUE_ZERO, s0.2)
  else if MAX_PLY - 1 < ply then (api.evaluate pos, s0.2)
  else if hd : depth ≤ 0 then qsearch api pos alpha beta ply s0.2
  else
    let st1 := { s0.2 with nodeCount := s0.2.nodeCount + 1 }
    if 0 < ply ∧ (api.is_draw pos (api.game_ply pos) = true ∨ 100 ≤ api.rule50_count pos)
    then (VALUE_DRAW, st1)
    else
      let inCheck := api.checkers pos
      let originalAlpha := alpha
      let posKey := api.key pos
      let pr := ttProbe (st1.tt (posKey % TT_SIZE)) posKey depth alpha beta
      match pr.1 with
      | some v => (v, st1)
      | Option.none =>
        let ttMove := pr.2
        let nullStep : Option Int × SState :=
          if hn : NullCond api pos depth ply doNull then
            let r := alphabeta api (api.do_null_move pos) (depth - 3) (-beta) (-beta + 1)
              (ply + 1) false st1
            (if beta ≤ -r.1 then some beta else Option.none, r.2)
          else (Option.none, st1)
        match nullStep.1 with
        | some v => (v, nullStep.2)
        | Option.none =>
          let st2 := nullStep.2
          let moves := api.gen_legal pos
          if moves = [] then (if inCheck then mated_in ply else VALUE_DRAW, st2)
          else
            let scored := moves.map (fun m => (m, score_move api pos st2.killers st2.history m ttMove ply))
            let L := abLoop api pos depth (by omega) beta ply scored alpha (-VALUE_INFINITE) Move.none st2
            if L.2.2.2 then (L.1, L.2.2.1)
            else (L.1, ttStore L.2.2.1 posKey L.2.1 L.1 depth originalAlpha beta)
termination_by (depth.toNat, 1, 0)
decreasing_by
  · apply Prod.Lex.left
    have h3 : (3 : Int) ≤ depth := by
      simp [NullCond] at hn
      tauto
    omega
  · apply Prod.Lex.right
    apply Prod.Lex.left
    omega

/-- The move loop of `alphabeta` (selection sort interleaved with search;
the `Bool` in the result is true when the loop returned early because
`should_stop()` fired after a child search — the path that skips the
transposition-table store).  The hypothesis `hd` records that the
enclosing call passed its `depth <= 0` guard. -/
def abLoop {Pos : Type} (api : PosAPI Pos) (pos : Pos)
    (depth : Int) (hd : 1 ≤ depth) (beta : Int) (ply : Nat)
    (ms : List (Move × Int)) (alpha bestScore : Int) (bestMove : Move)
    (st : SState) : Int × Move × SState × Bool :=
  match hpk : pickMax ms with
  | Option.none => (bestScore, bestMove, st, false)
  | some (c, rest) =>
    let m := c.1
    let st1 := { st with doMoves := st.doMoves + 1 }
    let r := alphabeta api (api.do_move pos m) (depth - 1) (-beta) (-alpha) (ply + 1) true st1
    let score := -r.1
    let s2 := shouldStop r.2
    if s2.1 then (bestScore, bestMove, s2.2, true)
    else
      if bestScore < score then
        if alpha < score then
          if beta ≤ score then
            let st4 :=
              if api.capture pos m then s2.2
              else
                let k := s2.2.killers ply
                let killers2 :=
                  if k.1 ≠ m then
                    fun p => if p = ply then (m, k.1) else s2.2.killers p
                  else s2.2.killers
                let mc := (api.moved_piece pos m).1
                let hist2 := fun c2 f t =>
                  if c2 = mc ∧ f = m.fromSq ∧ t = m.toSq
                  then s2.2.history c2 f t + depth * depth
                  else s2.2.history c2 f t
                { s2.2 with killers := killers2, history := hist2 }
            (score, m, st4, false)
          else abLoop api pos depth hd beta ply rest score score m s2.2
        else abLoop api pos depth hd beta ply rest alpha score m s2.2
      else abLoop api pos depth hd beta ply rest alpha bestScore bestMove s2.2
termination_by (depth.toNat, 0, ms.length)
decreasing_by
  · apply Prod.Lex.left
    omega
  · apply Prod.Lex.right
    apply Prod.Lex.right
    cases ms with
    | nil => simp [pickMax] at hpk
    | cons x xs =>
      simp only [pickMax] at hpk
      split at hpk
      · simp_all
      · have h2 : xs.set (selectIdx (x :: xs) - 1) x = rest := (Prod.mk.injEq _ _ _ _ ▸ Option.some.injEq _ _ ▸ hpk).2
        rw [← h2, List.length_set]
        simp
  · apply Prod.Lex.right
    apply Prod.Lex.right
    cases ms with
    | nil => simp [pickMax] at hpk
    | cons x xs =>
      simp only [pickMax] at hpk
      split at hpk
      · simp_all
      · have h2 : xs.set (selectIdx (x :: xs) - 1) x = rest := (Prod.mk.injEq _ _ _ _ ▸ Option.some.injEq _ _ ▸ hpk).2
        rw [← h2, List.length_set]
        simp
  · apply Prod.Lex.right
    apply Prod.Lex.right
    cases ms with
    | nil => simp [pickMax] at hpk
    | cons x xs =>
      simp only [pickMax] at hpk
      split at hpk
      · simp_all
      · have h2 : xs.set (selectIdx (x :: xs) - 1) x = rest := (Prod.mk.injEq _ _ _ _ ▸ Option.some.injEq _ _ ▸ hpk).2
        rw [← h2, List.length_set]
        simp

end

/-- `SearchResult` from `search.h`. -/
structure SearchResult where
  bestMove : Move
  score : Int
  depth : Nat
  nodes : Nat
deriving DecidableEq, Repr

/-- The per-call reset at the top of `search`: zero the node counter, clear
the stop flag, the killer table and the history table.  The transposition
table and the clock oracle persist. -/
def initState (st : SState) : SState :=
  { st with
    nodeCount := 0
    stopSearch := false
    killers := fun _ => (Move.none, Move.none)
    history := fun _ _ _ => 0 }

/-- The root move loop of one iterative-deepening depth (`search.cpp`,
`for (int i = 0; i < numMoves; ++i)` inside `search`): selection sort
interleaved with full-window child searches.  Returns
`(bestScore, bestMove, root move list as left in the array, state, early)`
where `early` is true when the loop broke because `should_stop()` fired. -/
def rootLoop {Pos : Type} (api : PosAPI Pos) (pos : Pos)
    (depth : Nat) (beta : Int) (ms : List (Move × Int))
    (alpha bestScore : Int) (bestMove : Move) (acc : List Move)
    (st : SState) : Int × Move × List Move × SState × Bool :=
  match hpk : pickMax ms with
  | Option.none => (bestScore, bestMove, acc.reverse, st, false)
  | some (c, rest) =>
    let m := c.1
    let st1 := { st with doMoves := st.doMoves + 1 }
    let r := alphabeta api (api.do_move pos m) ((depth : Int) - 1) (-beta) (-alpha) 1 true st1
    let score := -r.1
    let s2 := shouldStop r.2
    if s2.1 then (bestScore, bestMove, acc.reverse ++ m :: rest.map Prod.fst, s2.2, true)
    else
      if bestScore < score then
        let alpha2 := if alpha < score then score else alpha
        rootLoop api pos depth beta rest alpha2 score m (m :: acc) s2.2
      else rootLoop api pos depth beta rest alpha bestScore bestMove (m :: acc) s2.2
termination_by ms.length
decreasing_by
  · cases ms with
    | nil => simp [pickMax] at hpk
    | cons x xs =>
      simp only [pickMax] at hpk
      split at hpk
      · simp_all
      · have h2 : xs.set (selectIdx (x :: xs) - 1) x = rest := (Prod.mk.injEq _ _ _ _ ▸ Option.some.injEq _ _ ▸ hpk).2
        rw [← h2, List.length_set]
        simp
  · cases ms with
    | nil => simp [pickMax] at hpk
    | cons x xs =>
      simp only [pickMax] at hpk
      split at hpk
      · simp_all
      · have h2 : xs.set (selectIdx (x :: xs) - 1) x = rest := (Prod.mk.injEq _ _ _ _ ▸ Option.some.injEq _ _ ▸ hpk).2
        rw [← h2, List.length_set]
        simp

/-- The scored root move list built at the top of each iterative-deepening
depth (`score_move` with `tt_move = prevBest` and `ply = 0`). -/
def idScored {Pos : Type} (api : PosAPI Pos) (pos : Pos) (st : SState)
    (prevBest : Move) (ms : List Move) : List (Move × Int) :=
  ms.map (fun m => (m, score_move api pos st.killers st.history m prevBest 0))

/-- One iteration of the iterative-deepening loop of `search`
(`for (int depth = 1; depth <= maxDepth && depth <= 20; ++depth)`), as a
step function: `Sum.inl` is a loop exit carrying the final answer (depth
bound reached, stop at the top of the iteration, or a mate score after the
iteration), `Sum.inr` carries the loop variables handed to depth `d + 1`.
Only a depth whose root loop finished with the stop flag unset and a
non-null best move commits its `(best_move, score, depth)` to the result. -/
def idStep {Pos : Type} (api : PosAPI Pos) (pos : Pos) (maxDepth : Int)
    (d : Nat) (ms : List Move) (prevBest : Move) (result : SearchResult)
    (st : SState) : (SearchResult × SState) ⊕ (List Move × Move × SearchResult × SState) :=
  if maxDepth < (d : Int) ∨ 20 < d then Sum.inl ({ result with nodes := st.nodeCount }, st)
  else
    let s1 := shouldStop st
    if s1.1 then Sum.inl ({ result with nodes := s1.2.nodeCount }, s1.2)
    else
      let scored := idScored api pos s1.2 prevBest ms
      let R := rootLoop api pos d VALUE_INFINITE scored (-VALUE_INFINITE) (-VALUE_INFINITE)
        Move.none [] s1.2
      let bestScore := R.1
      let bestMove := R.2.1
      let ms2 := R.2.2.1
      let s3 := shouldStop R.2.2.2.1
      let commit := s3.1 = false ∧ bestMove ≠ Move.none
      let result2 := if commit then
          { bestMove := bestMove, score := bestScore, depth := d, nodes := result.nodes }
        else result
      let prevBest2 := if commit then bestMove else prevBest
      if VALUE_MATE_IN_MAX_PLY ≤ bestScore ∨ bestScore ≤ -VALUE_MATE_IN_MAX_PLY then
        Sum.inl ({ result2 with nodes := s3.2.nodeCount }, s3.2)
      else Sum.inr (ms2, prevBest2, result2, s3.2)

/-- The iterative-deepening loop of `search`: iterate `idStep` from the
current depth until it exits. -/
def idLoop {Pos : Type} (api : PosAPI Pos) (pos : Pos) (maxDepth : Int)
    (d : Nat) (ms : List Move) (prevBest : Move) (result : SearchResult)
    (st : SState) : SearchResult × SState :=
  match hstep : idStep api pos maxDepth d ms prevBest result st with
  | Sum.inl out => out
  | Sum.inr (ms2, prevBest2, result2, st2) =>
    idLoop api pos maxDepth (d + 1) ms2 prevBest2 result2 st2
termination_by 21 - d
decreasing_by
  have hd : ¬ (maxDepth < (d : Int) ∨ 20 < d) := by
    intro hc
    unfold idStep at hstep
    rw [if_pos hc] at hstep
    simp at hstep
  omega

/-- Modelled from the spec: the iterative-deepening loop states actually
reached by one `search` run — depth 1 starts from the enumerated root
moves, `prevBest = none`, the initial result and the reset search state,
and every further state is the one `idStep` hands to the next depth. -/
inductive IdReach {Pos : Type} (api : PosAPI Pos) (pos : Pos) (maxDepth : Int)
    (ms0 : List Move) (st0 : SState) :
    Nat → List Move → Move → SearchResult → SState → Prop where
  | start : IdReach api pos maxDepth ms0 st0 1 ms0 Move.none
      ⟨Move.none, VALUE_ZERO, 0, 0⟩ (initState st0)
  | step {d : Nat} {ms : List Move} {pb : Move} {result : SearchResult} {st : SState}
      {ms2 : List Move} {pb2 : Move} {r2 : SearchResult} {st2 : SState} :
      IdReach api pos maxDepth ms0 st0 d ms pb result st →
      idStep api pos maxDepth d ms pb result st = Sum.inr (ms2, pb2, r2, st2) →
      IdReach api pos maxDepth ms0 st0 (d + 1) ms2 pb2 r2 st2

/-- `search` from `search.cpp`: reset the search state, handle the zero- and
one-legal-move fast paths, then run the iterative-deepening loop.  The time
budget lives in the state's clock oracle. -/
def searchFn {Pos : Type} (api : PosAPI Pos) (pos : Pos) (maxDepth : Int)
    (st0 : SState) : SearchResult × SState :=
  let st := initState st0
  let result : SearchResult := ⟨Move.none, VALUE_ZERO, 0, 0⟩
  let rootMoves := api.gen_legal pos
  match rootMoves with
  | [] => ({ result with nodes := st.nodeCount }, st)
  | [m] => ({ bestMove := m, score := VALUE_ZERO, depth := 0, nodes := st.nodeCount }, st)
  | _ => idLoop api pos maxDepth 1 rootMoves Move.none result st

/-- The search state as it stands when `alphabeta` has passed its entry
checks and reaches the probe and the move loop: ghost call counter bumped,
clock sampled, node counter incremented. -/
def abEntryState (st : SState) : SState :=
  let s0 := shouldStop { st with abCalls := st.abCalls + 1 }
  { s0.2 with nodeCount := s0.2.nodeCount + 1 }

/-- The scored legal move list built by `alphabeta` before its move loop. -/
def abScored {Pos : Type} (api : PosAPI Pos) (pos : Pos) (st : SState)
    (ttMove : Move) (ply : Nat) : List (Move × Int) :=
  (api.gen_legal pos).map (fun m => (m, score_move api pos st.killers st.history m ttMove ply))

/-- A quiet baseline search state: fresh counters, empty tables, and a clock
oracle that never reports the budget exhausted. -/
def stBase : SState :=
  { nodeCount := 0
    stopSearch := false
    polls := []
    killers := fun _ => (Move.none, Move.none)
    history := fun _ _ _ => 0
    tt := fun _ => ⟨0, Move.none, 0, 0, 0⟩
    doMoves := 0
    abCalls := 0
    qsCalls := 0
    ttStores := 0 }

/-- `stBase` with the stop flag already latched. -/
def stStop : SState := { stBase with stopSearch := true }

/-- `stBase` about to cross a 2048-node clock sample whose poll reports the
budget exhausted. -/
def stPoll : SState := { stBase with nodeCount := 2047, polls := [true] }

/-- `stBase` holding one transposition-table entry for key 5: depth 3,
exact value 7. -/
def stTT : SState :=
  { stBase with tt := fun i => if i = 5 then ⟨5, ⟨9, 9, 9⟩, 7, 3, 0⟩ else ⟨0, Move.none, 0, 0, 0⟩ }

/-- A position interface with no legal moves and no captures: a terminal
position. -/
def apiEmpty : PosAPI Unit :=
  { evaluate := fun _ => 0
    checkers := fun _ => false
    key := fun _ => 5
    is_draw := fun _ _ => false
    rule50_count := fun _ => 0
    game_ply := fun _ => 0
    capture := fun _ _ => false
    legal := fun _ _ => true
    moved_piece := fun _ _ => (Color.white, PieceType.pawn)
    piece_on := fun _ _ => Option.none
    do_move := fun p _ => p
    do_null_move := fun p => p
    gen_legal := fun _ => []
    gen_captures := fun _ => []
    gen_evasions := fun _ => [] }

/-- The interface `apiEmpty` with exactly one legal move. -/
def apiSingle : PosAPI Unit := { apiEmpty with gen_legal := fun _ => [⟨1, 2, 0⟩] }

/-- The interface `apiEmpty` with exactly two legal moves. -/
def apiPair : PosAPI Unit := { apiEmpty with gen_legal := fun _ => [⟨1, 2, 0⟩, ⟨3, 4, 0⟩] }

/-- Modelled from the spec: the iterative-deepening commit contract.  The
result was committed by a depth iteration of this very search run: from a
loop state actually reached by the run (`IdReach`, starting from the
enumerated root moves and the reset search state), the iteration passed its
top-of-loop stop check, ran the root loop over the scored root moves to
completion (no early stop-break), found the stop flag still unset at its
end, and its non-null best move, its score and its depth are the ones in
the result. -/
def CommittedResult {Pos : Type} (api : PosAPI Pos) (pos : Pos) (maxDepth : Int)
    (st0 : SState) (r : SearchResult) : Prop :=
  ∃ (d : Nat) (ms : List Move) (pb : Move) (res : SearchResult) (st : SState)
    (bs : Int) (bm : Move) (ms2 : List Move) (st2 : SState),
    IdReach api pos maxDepth (api.gen_legal pos) st0 d ms pb res st ∧
    (shouldStop st).1 = false ∧
    rootLoop api pos d VALUE_INFINITE (idScored api pos (shouldStop st).2 pb ms)
      (-VALUE_INFINITE) (-VALUE_INFINITE) Move.none [] (shouldStop st).2
      = (bs, bm, ms2, st2, false) ∧
    (shouldStop st2).1 = false ∧ bm ≠ Move.none ∧
    r.bestMove = bm ∧ r.score = bs ∧ r.depth = d

/-- A pawn-takes-queen move for the MVV-LVA scenario: the white pawn on b4
(square 25) captures a black queen on a5 (square 32). -/
def movePxQ : Move := ⟨25, 32, 0⟩

/-- A queen-takes-pawn move for the MVV-LVA scenario: the white queen on d1
(square 3) captures a black pawn on d5 (square 35). -/
def moveQxP : Move := ⟨3, 35, 0⟩

/-- A position interface where `movePxQ` and `moveQxP` are both legal
captures: a black queen sits on the target of `movePxQ` and a black pawn on
the target of `moveQxP`. -/
def apiCap : PosAPI Unit :=
  { apiEmpty with
    capture := fun _ _ => true
    moved_piece := fun _ m =>
      if m = movePxQ then (Color.white, PieceType.pawn) else (Color.white, PieceType.queen)
    piece_on := fun _ s =>
      if s = 32 then some (Color.black, PieceType.queen)
      else if s = 35 then some (Color.black, PieceType.pawn)
      else Option.none }

/-- An en-passant capture: the white pawn on e5 (square 36) takes on d6
(square 43) while the captured black pawn stands on d5 (square 35), so the
destination square is empty. -/
def moveEP : Move := ⟨36, 43, 2⟩

/-- A position interface describing the en-passant scenario: `moveEP` is a
capture as declared by the Position API, but its destination square holds
`NO_PIECE`. -/
def apiEP : PosAPI Unit :=
  { apiEmpty with
    capture := fun _ m => m = moveEP
    moved_piece := fun _ _ => (Color.white, PieceType.pawn)
    piece_on := fun _ s => if s = 35 then some (Color.black, PieceType.pawn) else Option.none }

theorem shouldStop_frame (st : SState) :
    (shouldStop st).2.tt = st.tt ∧ (shouldStop st).2.killers = st.killers ∧
    (shouldStop st).2.history = st.history ∧ (shouldStop st).2.nodeCount = st.nodeCount ∧
    (shouldStop st).2.doMoves = st.doMoves ∧ (shouldStop st).2.ttStores = st.ttStores ∧
    (shouldStop st).2.abCalls = st.abCalls ∧ (shouldStop st).2.qsCalls = st.qsCalls := by
  unfold shouldStop
  split
  · cases st.polls <;> simp
  · simp

theorem shouldStop_latch (st : SState) (h : st.stopSearch = true) :
    (shouldStop st).1 = true := by
  unfold shouldStop
  split
  · cases st.polls <;> simp [h]
  · simp [h]

theorem shouldStop_mono (st : SState) (h : (shouldStop st).1 = true) :
    ((shouldStop st).2).stopSearch = true := by
  unfold shouldStop at *
  split at h
  · revert h
    cases st.polls <;> simp_all
  · simp_all

theorem mvvEntry_bounds (a v : PieceType) :
    0 ≤ mvvEntry a.idx v.idx ∧ mvvEntry a.idx v.idx ≤ 55 := by
  cases a <;> cases v <;> decide

/-- Claim C1, evaluated at the failing input.  With `tt_move = none` and no
killer match, `score_move` gives pawn-takes-queen the key 911000 and
queen-takes-pawn the key 955000, although the queen victim is strictly more
valuable than the pawn victim: the matrix `mvv_lva_scores[attacker][victim]`
ranks by most-valuable attacker first, refuting "higher victim first, then
lower attacker first". -/
theorem c1_mvv_lva_inverted :
    score_move apiCap () stBase.killers stBase.history movePxQ Move.none 0 = 911000 ∧
    score_move apiCap () stBase.killers stBase.history moveQxP Move.none 0 = 955000 ∧
    pieceValue PieceType.queen > pieceValue PieceType.pawn ∧
    (911000 : Int) < 955000 := by
  refine ⟨by decide, by decide, by decide, by decide⟩

/-- Claim C3 as stated is false: for the en-passant style capture `moveEP`
(declared a capture by the Position API but with an empty destination
square), `score_move` falls through to the history score 0, far below the
claimed capture band starting at 900000. -/
theorem c3_counterexample :
    apiEP.capture () moveEP = true ∧
    moveEP ≠ Move.none ∧
    score_move apiEP () stBase.killers stBase.history moveEP Move.none 0 = 0 ∧
    ¬ (900000 : Int) ≤ score_move apiEP () stBase.killers stBase.history moveEP Move.none 0 := by
  refine ⟨by decide, by decide, by decide, by decide⟩

/-- Claim C3 (amended): for every move that the Position API declares a
capture and whose destination square is occupied, when it is not the
tt-move `score_move` returns exactly
`900000 + 1000 * MVV_LVA[attacker_type][victim_type]`, a key in the band
`[900000, 955000]` above the killer scores; a capture with an empty
destination square (en passant) instead falls through to killer/history
scoring. -/
theorem c3_capture_band {Pos : Type} (api : PosAPI Pos) (pos : Pos)
    (killers : Nat → Move × Move) (history : Color → Square → Square → Int)
    (m tt_move : Move) (ply : Nat) (c : Color) (vt : PieceType)
    (hm : m ≠ tt_move) (hc : api.capture pos m = true)
    (hv : api.piece_on pos m.toSq = some (c, vt)) :
    score_move api pos killers history m tt_move ply =
      900000 + mvvEntry (api.moved_piece pos m).2.idx vt.idx * 1000 ∧
    900000 ≤ score_move api pos killers history m tt_move ply ∧
    score_move api pos killers history m tt_move ply ≤ 955000 := by
  have hb := mvvEntry_bounds (api.moved_piece pos m).2 vt
  unfold score_move
  rw [if_neg hm]
  simp only [hc, if_true, hv]
  refine ⟨trivial, by omega, by omega⟩

theorem c3_capture_band_witness :
    score_move apiCap () stBase.killers stBase.history movePxQ Move.none 0 =
      900000 + mvvEntry (apiCap.moved_piece () movePxQ).2.idx PieceType.queen.idx * 1000 ∧
    900000 ≤ score_move apiCap () stBase.killers stBase.history movePxQ Move.none 0 ∧
    score_move apiCap () stBase.killers stBase.history movePxQ Move.none 0 ≤ 955000 :=
  c3_capture_band apiCap () stBase.killers stBase.history movePxQ Move.none 0
    Color.black PieceType.queen (by decide) (by decide) (by decide)

theorem psqt_value_flip (c : Color) (pt : PieceType) (s : Square) :
    psqt_value (c.flip, pt) s = - psqt_value (c, pt) (flip_square s) := by
  cases c <;> simp [psqt_value, Color.flip, flip_square, Nat.xor_cancel_right]

theorem boardContrib_mirror (p : EvalPos) (s : Square) :
    boardContrib (mirrorPos p) s = - boardContrib p (flip_square s) := by
  unfold boardContrib mirrorPos
  cases hb : p.board (flip_square s) with
  | none => simp [hb]
  | some pc =>
    simp only [hb]
    exact psqt_value_flip pc.1 pc.2 s

theorem sum_over_flip (f : Nat → Int) :
    ∑ s ∈ Finset.range 64, f (flip_square s) = ∑ s ∈ Finset.range 64, f s := by
  apply Finset.sum_nbij' flip_square flip_square
  · decide
  · decide
  · intro a ha
    exact Nat.xor_cancel_right 56 a
  · intro a ha
    exact Nat.xor_cancel_right 56 a
  · intro a ha
    rfl

/-- Claim C2: for any position `P`, with `P'` the position with colors
swapped, board vertically mirrored and side to move flipped,
`evaluate(P) = evaluate(P')`. -/
theorem c2_evaluate_mirror (p : EvalPos) : evaluate (mirrorPos p) = evaluate p := by
  unfold evaluate
  have h1 : ∑ s ∈ Finset.range 64, boardContrib (mirrorPos p) s
      = - ∑ s ∈ Finset.range 64, boardContrib p s := by
    have h2 : ∑ s ∈ Finset.range 64, boardContrib (mirrorPos p) s
        = ∑ s ∈ Finset.range 64, - boardContrib p (flip_square s) :=
      Finset.sum_congr rfl (fun s hs => boardContrib_mirror p s)
    rw [h2, Finset.sum_neg_distrib, sum_over_flip (boardContrib p)]
  have hstm : (mirrorPos p).sideToMove = p.sideToMove.flip := rfl
  rw [hstm, h1]
  cases hc : p.sideToMove <;> simp [Color.flip]

theorem pickMax_some_length (ms : List (Move × Int)) (c : Move × Int)
    (rest : List (Move × Int)) (h : pickMax ms = some (c, rest)) :
    rest.length + 1 = ms.length := by
  cases ms with
  | nil => simp [pickMax] at h
  | cons x xs =>
    simp only [pickMax] at h
    split at h
    · simp_all
    · have h2 : xs.set (selectIdx (x :: xs) - 1) x = rest :=
        (Prod.mk.injEq _ _ _ _ ▸ Option.some.injEq _ _ ▸ h).2
      rw [← h2]
      simp [List.length_set]

theorem qLoop_bounds (n : Nat) : ∀ {Pos : Type} (api : PosAPI Pos) (pos : Pos)
    (beta : Int) (ply : Nat) (hp : ply ≤ MAX_PLY - 1) (ms : List (Move × Int))
    (alpha : Int) (st : SState), ms.length ≤ n → alpha ≤ beta →
    alpha ≤ (qLoop api pos beta ply hp ms alpha st).1 ∧
    (qLoop api pos beta ply hp ms alpha st).1 ≤ beta := by
  induction n with
  | zero =>
    intro Pos api pos beta ply hp ms alpha st hlen hab
    have hms : ms = [] := List.length_eq_zero.mp (Nat.le_zero.mp hlen)
    subst hms
    rw [qLoop]
    exact ⟨le_refl alpha, hab⟩
  | succ n ih =>
    intro Pos api pos beta ply hp ms alpha st hlen hab
    rw [qLoop]
    split
    · exact ⟨le_refl alpha, hab⟩
    · rename_i c rest hpk2
      have hrl : rest.length ≤ n := by
        have := pickMax_some_length ms c rest hpk2
        omega
      dsimp only
      split
      · exact ih api pos beta ply hp rest alpha st hrl hab
      · split
        · exact ⟨hab, le_refl beta⟩
        · rename_i hcut
          split
          · rename_i hup
            constructor
            · exact le_trans (le_of_lt hup) (ih api pos beta ply hp rest _ _ hrl (by omega)).1
            · exact (ih api pos beta ply hp rest _ _ hrl (by omega)).2
          · exact ih api pos beta ply hp rest alpha _ hrl hab

/-- Claim C10: for every position, window with `alpha <= beta` and ply
within the `MAX_PLY` bound, `qsearch` is fail-hard: the returned value `v`
satisfies `alpha <= v <= beta` (it returns `beta` on a stand-pat or child
cutoff and otherwise a final alpha never below the alpha passed in). -/
theorem c10_qsearch_fail_hard {Pos : Type} (api : PosAPI Pos) (pos : Pos)
    (alpha beta : Int) (ply : Nat) (st : SState)
    (hab : alpha ≤ beta) (hply : ply ≤ MAX_PLY - 1) :
    alpha ≤ (qsearch api pos alpha beta ply st).1 ∧
    (qsearch api pos alpha beta ply st).1 ≤ beta := by
  rw [qsearch]
  dsimp only
  rw [dif_neg (by omega : ¬ MAX_PLY - 1 < ply)]
  dsimp only
  split
  · exact ⟨hab, le_refl beta⟩
  · rename_i hsp
    have h1 : alpha ≤ (if alpha < api.evaluate pos then api.evaluate pos else alpha) := by
      split <;> omega
    have h2 : (if alpha < api.evaluate pos then api.evaluate pos else alpha) ≤ beta := by
      split <;> omega
    refine ⟨le_trans h1 ?_, ?_⟩
    · exact (qLoop_bounds _ api pos beta ply hply _ _ _ (le_refl _) h2).1
    · exact (qLoop_bounds _ api pos beta ply hply _ _ _ (le_refl _) h2).2

theorem c10_qsearch_fail_hard_witness :
    (0 : Int) ≤ (qsearch apiEmpty () 0 1 0 stBase).1 ∧
    (qsearch apiEmpty () 0 1 0 stBase).1 ≤ 1 :=
  c10_qsearch_fail_hard apiEmpty () 0 1 0 stBase (by omega) (by decide)


/-- Claim C9: in `alphabeta`, when the transposition-table slot's key
matches the position key, a cutoff (stored value for EXACT, `beta` for
LOWER with value at least `beta`, `alpha` for UPPER with value at most
`alpha`) is returned only when the stored depth is at least the requested
depth; a shallower matching entry contributes only its best move and the
search proceeds; and a probe that yields a cutoff makes `alphabeta` return
that cutoff directly. -/
theorem c9_tt_probe_depth {Pos : Type} (api : PosAPI Pos) (pos : Pos)
    (depth : Int) (alpha beta : Int) (ply : Nat) (doNull : Bool) (st : SState) :
    (∀ (tte : TTEntry) (posKey : Nat) (v : Int) (mv : Move),
      ttProbe tte posKey depth alpha beta = (some v, mv) →
      tte.key = posKey ∧ depth ≤ tte.depth ∧ mv = tte.best_move ∧
      ((tte.flag = 0 ∧ v = tte.value) ∨
       (tte.flag = 1 ∧ beta ≤ tte.value ∧ v = beta) ∨
       (tte.flag = 2 ∧ tte.value ≤ alpha ∧ v = alpha))) ∧
    (∀ (tte : TTEntry) (posKey : Nat),
      tte.key = posKey → tte.depth < depth →
      ttProbe tte posKey depth alpha beta = (Option.none, tte.best_move)) ∧
    ((shouldStop { st with abCalls := st.abCalls + 1 }).1 = false →
     ¬ MAX_PLY - 1 < ply →
     ¬ depth ≤ 0 →
     ¬ (0 < ply ∧ (api.is_draw pos (api.game_ply pos) = true ∨ 100 ≤ api.rule50_count pos)) →
     ∀ v : Int,
       (ttProbe (st.tt (api.key pos % TT_SIZE)) (api.key pos) depth alpha beta).1 = some v →
       (alphabeta api pos depth alpha beta ply doNull st).1 = v) := by
  refine ⟨?_, ?_, ?_⟩
  · intro tte posKey v mv h
    unfold ttProbe at h
    split at h
    · rename_i hkd
      split at h
      · exact ⟨hkd.1, hkd.2, by simp_all, Or.inl ⟨by simp_all, by simp_all⟩⟩
      · split at h
        · rename_i h0 h1
          exact ⟨hkd.1, hkd.2, by simp_all, Or.inr (Or.inl ⟨h1.1, h1.2, by simp_all⟩)⟩
        · split at h
          · rename_i h0 h1 h2
            exact ⟨hkd.1, hkd.2, by simp_all, Or.inr (Or.inr ⟨h2.1, h2.2, by simp_all⟩)⟩
          · simp_all
    · split at h <;> simp_all
  · intro tte posKey hk hd
    unfold ttProbe
    rw [if_neg (by omega : ¬ (tte.key = posKey ∧ depth ≤ tte.depth))]
    rw [if_pos hk]
  · intro hstop hply hdep hdraw v hprobe
    rw [alphabeta]
    dsimp only
    rw [hstop]
    rw [if_neg (by simp)]
    rw [if_neg hply]
    rw [dif_neg hdep]
    rw [if_neg hdraw]
    have htt : (shouldStop { st with abCalls := st.abCalls + 1 }).2.tt = st.tt :=
      (shouldStop_frame _).1
    rw [htt, hprobe]

theorem c9_tt_probe_depth_witness :
    (alphabeta apiEmpty () 2 0 10 1 false stTT).1 = 7 :=
  (c9_tt_probe_depth apiEmpty () 2 0 10 1 false stTT).2.2
    (by decide) (by decide) (by decide) (by decide) 7 (by decide)

theorem alphabeta_reach_loop {Pos : Type} (api : PosAPI Pos) (pos : Pos)
    (depth : Int) (alpha beta : Int) (ply : Nat) (doNull : Bool) (st : SState)
    (h1 : 1 ≤ depth)
    (hstop : (shouldStop { st with abCalls := st.abCalls + 1 }).1 = false)
    (hply : ¬ MAX_PLY - 1 < ply)
    (hdraw : ¬ (0 < ply ∧ (api.is_draw pos (api.game_ply pos) = true ∨ 100 ≤ api.rule50_count pos)))
    (hprobe : (ttProbe (st.tt (api.key pos % TT_SIZE)) (api.key pos) depth alpha beta).1 = Option.none)
    (hnull : NullCond api pos depth ply doNull = false)
    (hmoves : api.gen_legal pos ≠ []) :
    alphabeta api pos depth alpha beta ply doNull st =
      (let L := abLoop api pos depth h1 beta ply
        (abScored api pos (abEntryState st)
          (ttProbe (st.tt (api.key pos % TT_SIZE)) (api.key pos) depth alpha beta).2 ply)
        alpha (-VALUE_INFINITE) Move.none (abEntryState st);
       if L.2.2.2 = true then (L.1, L.2.2.1)
       else (L.1, ttStore L.2.2.1 (api.key pos) L.2.1 L.1 depth alpha beta)) := by
  rw [alphabeta]
  dsimp only
  rw [hstop]
  rw [if_neg (by simp)]
  rw [if_neg hply]
  rw [dif_neg (by omega : ¬ depth ≤ 0)]
  rw [if_neg hdraw]
  have htt : (shouldStop { st with abCalls := st.abCalls + 1 }).2.tt = st.tt :=
    (shouldStop_frame _).1
  rw [htt, hprobe]
  dsimp only
  simp only [hnull]
  rw [dif_neg (by simp)]
  dsimp only
  rw [if_neg hmoves]
  simp only [abScored, abEntryState]
  rw [htt]

/-- Claim C5: every transposition-table store performed by `alphabeta`
unconditionally overwrites slot `key mod 2^20` (leaving all other slots
unchanged), and its bound flag is derived from the alpha captured on entry:
UPPER (2) if `bestScore <= original_alpha`, LOWER (1) if
`bestScore >= beta`, EXACT (0) otherwise; in particular a completed move
loop makes `alphabeta` store its best move and score with the flag computed
from the entry alpha, not the raised one. -/
theorem c5_tt_store_flag {Pos : Type} (api : PosAPI Pos) (pos : Pos)
    (depth : Int) (alpha beta : Int) (ply : Nat) (doNull : Bool) (st : SState) :
    (∀ (st2 : SState) (posKey : Nat) (bm : Move) (bs sd oa bb : Int),
      (ttStore st2 posKey bm bs sd oa bb).tt (posKey % TT_SIZE) =
        ⟨posKey, bm, bs, sd, flagOf bs oa bb⟩ ∧
      (∀ j, j ≠ posKey % TT_SIZE → (ttStore st2 posKey bm bs sd oa bb).tt j = st2.tt j) ∧
      (ttStore st2 posKey bm bs sd oa bb).ttStores = st2.ttStores + 1) ∧
    (∀ bs oa bb : Int,
      (bs ≤ oa → flagOf bs oa bb = 2) ∧
      (oa < bs → bb ≤ bs → flagOf bs oa bb = 1) ∧
      (oa < bs → bs < bb → flagOf bs oa bb = 0)) ∧
    (∀ (h1 : 1 ≤ depth),
      (shouldStop { st with abCalls := st.abCalls + 1 }).1 = false →
      ¬ MAX_PLY - 1 < ply →
      ¬ (0 < ply ∧ (api.is_draw pos (api.game_ply pos) = true ∨ 100 ≤ api.rule50_count pos)) →
      (ttProbe (st.tt (api.key pos % TT_SIZE)) (api.key pos) depth alpha beta).1 = Option.none →
      NullCond api pos depth ply doNull = false →
      api.gen_legal pos ≠ [] →
      (abLoop api pos depth h1 beta ply
        (abScored api pos (abEntryState st)
          (ttProbe (st.tt (api.key pos % TT_SIZE)) (api.key pos) depth alpha beta).2 ply)
        alpha (-VALUE_INFINITE) Move.none (abEntryState st)).2.2.2 = false →
      (alphabeta api pos depth alpha beta ply doNull st).2.tt (api.key pos % TT_SIZE) =
        ⟨api.key pos,
         (abLoop api pos depth h1 beta ply
           (abScored api pos (abEntryState st)
             (ttProbe (st.tt (api.key pos % TT_SIZE)) (api.key pos) depth alpha beta).2 ply)
           alpha (-VALUE_INFINITE) Move.none (abEntryState st)).2.1,
         (abLoop api pos depth h1 beta ply
           (abScored api pos (abEntryState st)
             (ttProbe (st.tt (api.key pos % TT_SIZE)) (api.key pos) depth alpha beta).2 ply)
           alpha (-VALUE_INFINITE) Move.none (abEntryState st)).1,
         depth,
         flagOf (abLoop api pos depth h1 beta ply
           (abScored api pos (abEntryState st)
             (ttProbe (st.tt (api.key pos % TT_SIZE)) (api.key pos) depth alpha beta).2 ply)
           alpha (-VALUE_INFINITE) Move.none (abEntryState st)).1 alpha beta⟩) := by
  refine ⟨?_, ?_, ?_⟩
  · intro st2 posKey bm bs sd oa bb
    refine ⟨by simp [ttStore], ?_, by simp [ttStore]⟩
    intro j hj
    simp [ttStore, hj]
  · intro bs oa bb
    refine ⟨?_, ?_, ?_⟩
    · intro h
      simp [flagOf, h]
    · intro h1 h2
      unfold flagOf
      rw [if_neg (by omega), if_pos h2]
    · intro h1 h2
      unfold flagOf
      rw [if_neg (by omega), if_neg (by omega)]
  · intro h1 hstop hply hdraw hprobe hnull hmoves hearly
    rw [alphabeta_reach_loop api pos depth alpha beta ply doNull st h1 hstop hply hdraw hprobe hnull hmoves]
    dsimp only
    rw [hearly]
    simp [ttStore]

theorem c5_tt_store_flag_witness :
    (alphabeta apiSingle () 1 0 1 1 false stBase).2.tt (apiSingle.key () % TT_SIZE) =
      ⟨5, ⟨1, 2, 0⟩, 0, 1, 2⟩ := by
  have h := (c5_tt_store_flag apiSingle () 1 0 1 1 false stBase).2.2 (by omega)
    (by decide) (by decide) (by decide) (by decide) (by decide) (by decide)
    (by simp [abLoop, alphabeta, qsearch, qLoop, shouldStop, abScored, abEntryState, score_move,
      NullCond, ttProbe, pickMax, selectIdx, stBase, apiSingle, apiEmpty, TT_SIZE, MAX_PLY,
      VALUE_ZERO, VALUE_INFINITE, mvvEntry, mvv_lva_scores, Move.none, ttStore, flagOf])
  rw [h]
  simp [abLoop, alphabeta, qsearch, qLoop, shouldStop, abScored, abEntryState, score_move,
    NullCond, ttProbe, pickMax, selectIdx, stBase, apiSingle, apiEmpty, TT_SIZE, MAX_PLY,
    VALUE_ZERO, VALUE_INFINITE, mvvEntry, mvv_lva_scores, Move.none, ttStore, flagOf]

theorem alphabeta_stop_entry {Pos : Type} (api : PosAPI Pos) (pos : Pos)
    (depth : Int) (alpha beta : Int) (ply : Nat) (doNull : Bool) (st : SState)
    (h : (shouldStop { st with abCalls := st.abCalls + 1 }).1 = true) :
    alphabeta api pos depth alpha beta ply doNull st =
      (VALUE_ZERO, (shouldStop { st with abCalls := st.abCalls + 1 }).2) := by
  rw [alphabeta]
  dsimp only
  rw [h]
  simp

theorem abLoop_stopped {Pos : Type} (api : PosAPI Pos) (pos : Pos)
    (depth : Int) (h1 : 1 ≤ depth) (beta : Int) (ply : Nat)
    (ms : List (Move × Int)) (alpha bs : Int) (bm : Move) (st : SState)
    (c : Move × Int) (rest : List (Move × Int))
    (hstop : st.stopSearch = true) (hpk : pickMax ms = some (c, rest)) :
    (abLoop api pos depth h1 beta ply ms alpha bs bm st).1 = bs ∧
    (abLoop api pos depth h1 beta ply ms alpha bs bm st).2.1 = bm ∧
    (abLoop api pos depth h1 beta ply ms alpha bs bm st).2.2.2 = true ∧
    (abLoop api pos depth h1 beta ply ms alpha bs bm st).2.2.1.tt = st.tt ∧
    (abLoop api pos depth h1 beta ply ms alpha bs bm st).2.2.1.ttStores = st.ttStores := by
  rw [abLoop]
  split
  · simp_all
  · rename_i c2 rest2 hpk2
    dsimp only
    have hchild : (shouldStop { { st with doMoves := st.doMoves + 1 } with
        abCalls := { st with doMoves := st.doMoves + 1 }.abCalls + 1 }).1 = true :=
      shouldStop_latch _ (by simp [hstop])
    rw [alphabeta_stop_entry api (api.do_move pos c2.1) (depth - 1) (-beta) (-alpha)
      (ply + 1) true { st with doMoves := st.doMoves + 1 } hchild]
    have hsC : ((shouldStop { { st with doMoves := st.doMoves + 1 } with
        abCalls := { st with doMoves := st.doMoves + 1 }.abCalls + 1 }).2).stopSearch = true :=
      shouldStop_mono _ hchild
    have hs2 := shouldStop_latch _ hsC
    rw [hs2]
    simp only [if_true]
    refine ⟨trivial, trivial, trivial, ?_, ?_⟩
    · have hf1 := (shouldStop_frame ((shouldStop { { st with doMoves := st.doMoves + 1 } with
        abCalls := { st with doMoves := st.doMoves + 1 }.abCalls + 1 }).2)).1
      have hf2 := (shouldStop_frame { { st with doMoves := st.doMoves + 1 } with
        abCalls := { st with doMoves := st.doMoves + 1 }.abCalls + 1 }).1
      simp_all
    · have hf1 := (shouldStop_frame ((shouldStop { { st with doMoves := st.doMoves + 1 } with
        abCalls := { st with doMoves := st.doMoves + 1 }.abCalls + 1 }).2)).2.2.2.2.2.1
      have hf2 := (shouldStop_frame { { st with doMoves := st.doMoves + 1 } with
        abCalls := { st with doMoves := st.doMoves + 1 }.abCalls + 1 }).2.2.2.2.2.1
      simp_all

/-- Claim C8: if `should_stop()` fires on entry, `alphabeta` returns
`VALUE_ZERO` at once, changing nothing but the clock oracle (in particular
no transposition-table write); if the stop flag is latched when a child
move's search returns, the move loop returns early, with the
transposition table and store counter untouched; and an early loop exit
makes `alphabeta` return the loop's state directly, skipping the
transposition-table store. -/
theorem c8_stop_skips_tt_store {Pos : Type} (api : PosAPI Pos) (pos : Pos)
    (depth : Int) (alpha beta : Int) (ply : Nat) (doNull : Bool) (st : SState)
    (ms : List (Move × Int)) (bs : Int) (bm : Move) :
    ((shouldStop { st with abCalls := st.abCalls + 1 }).1 = true →
      alphabeta api pos depth alpha beta ply doNull st =
        (VALUE_ZERO, (shouldStop { st with abCalls := st.abCalls + 1 }).2) ∧
      (shouldStop { st with abCalls := st.abCalls + 1 }).2.tt = st.tt ∧
      (shouldStop { st with abCalls := st.abCalls + 1 }).2.ttStores = st.ttStores) ∧
    (∀ (h1 : 1 ≤ depth) (c : Move × Int) (rest : List (Move × Int)),
      st.stopSearch = true → pickMax ms = some (c, rest) →
      (abLoop api pos depth h1 beta ply ms alpha bs bm st).1 = bs ∧
      (abLoop api pos depth h1 beta ply ms alpha bs bm st).2.1 = bm ∧
      (abLoop api pos depth h1 beta ply ms alpha bs bm st).2.2.2 = true ∧
      (abLoop api pos depth h1 beta ply ms alpha bs bm st).2.2.1.tt = st.tt ∧
      (abLoop api pos depth h1 beta ply ms alpha bs bm st).2.2.1.ttStores = st.ttStores) ∧
    (∀ (h1 : 1 ≤ depth),
      (shouldStop { st with abCalls := st.abCalls + 1 }).1 = false →
      ¬ MAX_PLY - 1 < ply →
      ¬ (0 < ply ∧ (api.is_draw pos (api.game_ply pos) = true ∨ 100 ≤ api.rule50_count pos)) →
      (ttProbe (st.tt (api.key pos % TT_SIZE)) (api.key pos) depth alpha beta).1 = Option.none →
      NullCond api pos depth ply doNull = false →
      api.gen_legal pos ≠ [] →
      (abLoop api pos depth h1 beta ply
        (abScored api pos (abEntryState st)
          (ttProbe (st.tt (api.key pos % TT_SIZE)) (api.key pos) depth alpha beta).2 ply)
        alpha (-VALUE_INFINITE) Move.none (abEntryState st)).2.2.2 = true →
      alphabeta api pos depth alpha beta ply doNull st =
        ((abLoop api pos depth h1 beta ply
           (abScored api pos (abEntryState st)
             (ttProbe (st.tt (api.key pos % TT_SIZE)) (api.key pos) depth alpha beta).2 ply)
           alpha (-VALUE_INFINITE) Move.none (abEntryState st)).1,
         (abLoop api pos depth h1 beta ply
           (abScored api pos (abEntryState st)
             (ttProbe (st.tt (api.key pos % TT_SIZE)) (api.key pos) depth alpha beta).2 ply)
           alpha (-VALUE_INFINITE) Move.none (abEntryState st)).2.2.1)) := by
  refine ⟨?_, ?_, ?_⟩
  · intro h
    exact ⟨alphabeta_stop_entry api pos depth alpha beta ply doNull st h,
      (shouldStop_frame _).1, (shouldStop_frame _).2.2.2.2.2.1⟩
  · intro h1 c rest hstop hpk
    exact abLoop_stopped api pos depth h1 beta ply ms alpha bs bm st c rest hstop hpk
  · intro h1 hstop hply hdraw hprobe hnull hmoves hearly
    rw [alphabeta_reach_loop api pos depth alpha beta ply doNull st h1 hstop hply hdraw hprobe hnull hmoves]
    dsimp only
    rw [hearly]
    simp

theorem c8_stop_skips_tt_store_witness :
    (alphabeta apiEmpty () 3 0 5 1 true stStop =
      (VALUE_ZERO, (shouldStop { stStop with abCalls := stStop.abCalls + 1 }).2)) ∧
    ((abLoop apiEmpty () 1 (by omega) 5 1 [(⟨1, 2, 0⟩, 0)] 0 (-7) Move.none stStop).2.2.2 = true ∧
     (abLoop apiEmpty () 1 (by omega) 5 1 [(⟨1, 2, 0⟩, 0)] 0 (-7) Move.none stStop).2.2.1.ttStores
       = stStop.ttStores) ∧
    (alphabeta apiSingle () 1 0 1 1 false stPoll =
      ((abLoop apiSingle () 1 (by omega) 1 1
         (abScored apiSingle () (abEntryState stPoll)
           (ttProbe (stPoll.tt (apiSingle.key () % TT_SIZE)) (apiSingle.key ()) 1 0 1).2 1)
         0 (-VALUE_INFINITE) Move.none (abEntryState stPoll)).1,
       (abLoop apiSingle () 1 (by omega) 1 1
         (abScored apiSingle () (abEntryState stPoll)
           (ttProbe (stPoll.tt (apiSingle.key () % TT_SIZE)) (apiSingle.key ()) 1 0 1).2 1)
         0 (-VALUE_INFINITE) Move.none (abEntryState stPoll)).2.2.1)) := by
  refine ⟨?_, ⟨?_, ?_⟩, ?_⟩
  · exact ((c8_stop_skips_tt_store apiEmpty () 3 0 5 1 true stStop [] 0 Move.none).1
      (by decide)).1
  · exact ((c8_stop_skips_tt_store apiEmpty () 1 0 5 1 true stStop
      [(⟨1, 2, 0⟩, 0)] (-7) Move.none).2.1 (by omega) (⟨1, 2, 0⟩, 0) [] (by decide)
      (by decide)).2.2.1
  · exact ((c8_stop_skips_tt_store apiEmpty () 1 0 5 1 true stStop
      [(⟨1, 2, 0⟩, 0)] (-7) Move.none).2.1 (by omega) (⟨1, 2, 0⟩, 0) [] (by decide)
      (by decide)).2.2.2.2
  · exact (c8_stop_skips_tt_store apiSingle () 1 0 1 1 false stPoll [] 0 Move.none).2.2
      (by omega) (by decide) (by decide) (by decide) (by decide) (by decide) (by decide)
      (by simp [abLoop, alphabeta, qsearch, qLoop, shouldStop, abScored, abEntryState,
        score_move, NullCond, ttProbe, pickMax, selectIdx, stPoll, stBase, apiSingle, apiEmpty,
        TT_SIZE, MAX_PLY, VALUE_ZERO, VALUE_INFINITE, mvvEntry, mvv_lva_scores, Move.none])

/-- Claim C6: with an empty root legal-move list, `search` returns
`{none, 0, 0, nodes}` (the node counter, freshly reset, is 0) and performs
no `do_move` (ghost counter unchanged). -/
theorem c6_no_legal_moves {Pos : Type} (api : PosAPI Pos) (pos : Pos)
    (maxDepth : Int) (st : SState) (h : api.gen_legal pos = []) :
    (searchFn api pos maxDepth st).1 = ⟨Move.none, 0, 0, 0⟩ ∧
    (searchFn api pos maxDepth st).2.doMoves = st.doMoves := by
  unfold searchFn
  rw [h]
  exact ⟨rfl, rfl⟩

theorem c6_no_legal_moves_witness :
    (searchFn apiEmpty () 5 stBase).1 = ⟨Move.none, 0, 0, 0⟩ ∧
    (searchFn apiEmpty () 5 stBase).2.doMoves = stBase.doMoves :=
  c6_no_legal_moves apiEmpty () 5 stBase rfl

/-- Claim C7: with exactly one legal root move, `search` returns that move
with score 0, depth 0 and nodes 0, and does not recurse: no `do_move`, no
`alphabeta` and no `qsearch` call is made (ghost counters unchanged). -/
theorem c7_single_reply {Pos : Type} (api : PosAPI Pos) (pos : Pos)
    (maxDepth : Int) (st : SState) (m : Move) (h : api.gen_legal pos = [m]) :
    (searchFn api pos maxDepth st).1 = ⟨m, 0, 0, 0⟩ ∧
    (searchFn api pos maxDepth st).2.doMoves = st.doMoves ∧
    (searchFn api pos maxDepth st).2.abCalls = st.abCalls ∧
    (searchFn api pos maxDepth st).2.qsCalls = st.qsCalls := by
  unfold searchFn
  rw [h]
  exact ⟨rfl, rfl, rfl, rfl⟩

theorem c7_single_reply_witness :
    (searchFn apiSingle () 5 stBase).1 = ⟨⟨1, 2, 0⟩, 0, 0, 0⟩ ∧
    (searchFn apiSingle () 5 stBase).2.doMoves = stBase.doMoves ∧
    (searchFn apiSingle () 5 stBase).2.abCalls = stBase.abCalls ∧
    (searchFn apiSingle () 5 stBase).2.qsCalls = stBase.qsCalls :=
  c7_single_reply apiSingle () 5 stBase ⟨1, 2, 0⟩ rfl

theorem rootLoop_early_stop (n : Nat) : ∀ {Pos : Type} (api : PosAPI Pos) (pos : Pos)
    (depth : Nat) (beta : Int) (ms : List (Move × Int)) (alpha bs : Int)
    (bm : Move) (acc : List Move) (st : SState), ms.length ≤ n →
    ((rootLoop api pos depth beta ms alpha bs bm acc st).2.2.2.2 = true →
     (rootLoop api pos depth beta ms alpha bs bm acc st).2.2.2.1.stopSearch = true) := by
  induction n with
  | zero =>
    intro Pos api pos depth beta ms alpha bs bm acc st hlen
    have hms : ms = [] := List.length_eq_zero.mp (Nat.le_zero.mp hlen)
    subst hms
    rw [rootLoop]
    simp [pickMax]
  | succ n ih =>
    intro Pos api pos depth beta ms alpha bs bm acc st hlen
    rw [rootLoop]
    split
    · simp
    · rename_i c rest hpk
      have hrl : rest.length ≤ n := by
        have := pickMax_some_length ms c rest hpk
        omega
      dsimp only
      split
      · rename_i hs2
        intro h
        exact shouldStop_mono _ hs2
      · rename_i hs2
        split
        · exact ih api pos depth beta rest _ _ _ _ _ hrl
        · exact ih api pos depth beta rest _ _ _ _ _ hrl


theorem idStep_preserves {Pos : Type} (api : PosAPI Pos) (pos : Pos) (maxDepth : Int)
    (st0 : SState) (d : Nat) (ms : List Move) (pb : Move) (result : SearchResult)
    (st : SState)
    (hreach : IdReach api pos maxDepth (api.gen_legal pos) st0 d ms pb result st)
    (hP : (result.bestMove = Move.none ∧ result.score = 0 ∧ result.depth = 0) ∨
      CommittedResult api pos maxDepth st0 result) :
    ∀ z, idStep api pos maxDepth d ms pb result st = z →
    ((match z with
      | Sum.inl out =>
        (out.1.bestMove = Move.none ∧ out.1.score = 0 ∧ out.1.depth = 0) ∨
          CommittedResult api pos maxDepth st0 out.1
      | Sum.inr (ms2, pb2, r2, st2) =>
        (r2.bestMove = Move.none ∧ r2.score = 0 ∧ r2.depth = 0) ∨
          CommittedResult api pos maxDepth st0 r2) : Prop) := by
  intro z hz
  subst hz
  unfold idStep
  by_cases hg : maxDepth < (d : Int) ∨ 20 < d
  · rw [if_pos hg]
    exact hP
  · rw [if_neg hg]
    dsimp only
    by_cases hs1 : (shouldStop st).1 = true
    · rw [if_pos hs1]
      exact hP
    · rw [if_neg hs1]
      have hs1f : (shouldStop st).1 = false := by
        revert hs1
        cases (shouldStop st).1 <;> simp
      rcases hRt : rootLoop api pos d VALUE_INFINITE
          (idScored api pos (shouldStop st).2 pb ms) (-VALUE_INFINITE)
          (-VALUE_INFINITE) Move.none [] (shouldStop st).2 with ⟨bs, bm, ms2c, st2c, early⟩
      dsimp only
      have hes := rootLoop_early_stop (idScored api pos (shouldStop st).2 pb ms).length
        api pos d VALUE_INFINITE (idScored api pos (shouldStop st).2 pb ms)
        (-VALUE_INFINITE) (-VALUE_INFINITE) Move.none [] (shouldStop st).2 (le_refl _)
      rw [hRt] at hes
      dsimp only at hes
      have hP2 : (∀ (X : SearchResult),
          X.bestMove = (if (shouldStop st2c).1 = false ∧ bm ≠ Move.none
            then { bestMove := bm, score := bs, depth := d, nodes := result.nodes }
            else result).bestMove →
          X.score = (if (shouldStop st2c).1 = false ∧ bm ≠ Move.none
            then { bestMove := bm, score := bs, depth := d, nodes := result.nodes }
            else result).score →
          X.depth = (if (shouldStop st2c).1 = false ∧ bm ≠ Move.none
            then { bestMove := bm, score := bs, depth := d, nodes := result.nodes }
            else result).depth →
          (X.bestMove = Move.none ∧ X.score = 0 ∧ X.depth = 0) ∨
          CommittedResult api pos maxDepth st0 X) := by
        intro X hXb hXs hXd
        by_cases hc : (shouldStop st2c).1 = false ∧ bm ≠ Move.none
        · rw [if_pos hc] at hXb hXs hXd
          dsimp only at hXb hXs hXd
          have hef : early = false := by
            by_contra hne
            have het : early = true := by
              cases early
              · simp at hne
              · rfl
            have h1 := shouldStop_latch st2c (hes het)
            rw [h1] at hc
            simp at hc
          refine Or.inr ⟨d, ms, pb, result, st, bs, bm, ms2c, st2c, hreach, hs1f, ?_,
            hc.1, hc.2, hXb, hXs, hXd⟩
          rw [hRt, hef]
        · rw [if_neg hc] at hXb hXs hXd
          cases hP with
          | inl h => exact Or.inl ⟨hXb.trans h.1, hXs.trans h.2.1, hXd.trans h.2.2⟩
          | inr h =>
            obtain ⟨d1, ms1, pb1, res1, st1, bs1, bm1, msO, stO,
              hq0, hq1, hq2, hq3, hq4, hq5, hq6, hq7⟩ := h
            exact Or.inr ⟨d1, ms1, pb1, res1, st1, bs1, bm1, msO, stO,
              hq0, hq1, hq2, hq3, hq4, hXb.trans hq5, hXs.trans hq6, hXd.trans hq7⟩
      by_cases hm : VALUE_MATE_IN_MAX_PLY ≤ bs ∨ bs ≤ -VALUE_MATE_IN_MAX_PLY
      · rw [if_pos hm]
        exact hP2 _ rfl rfl rfl
      · rw [if_neg hm]
        exact hP2 _ rfl rfl rfl

theorem idLoop_commit_inv {Pos : Type} (api : PosAPI Pos) (pos : Pos) (maxDepth : Int)
    (st0 : SState) :
    ∀ (k d : Nat) (ms : List Move) (pb : Move) (result : SearchResult) (st : SState),
    21 - d ≤ k →
    IdReach api pos maxDepth (api.gen_legal pos) st0 d ms pb result st →
    ((result.bestMove = Move.none ∧ result.score = 0 ∧ result.depth = 0) ∨
      CommittedResult api pos maxDepth st0 result) →
    (((idLoop api pos maxDepth d ms pb result st).1.bestMove = Move.none ∧
      (idLoop api pos maxDepth d ms pb result st).1.score = 0 ∧
      (idLoop api pos maxDepth d ms pb result st).1.depth = 0) ∨
     CommittedResult api pos maxDepth st0 (idLoop api pos maxDepth d ms pb result st).1) := by
  intro k
  induction k with
  | zero =>
    intro d ms pb result st hk hreach hP
    rw [idLoop]
    split
    · rename_i out heq
      exact idStep_preserves api pos maxDepth st0 d ms pb result st hreach hP _ heq
    · rename_i ms2 pb2 r2 st2 heq
      exfalso
      have hd : ¬ (maxDepth < (d : Int) ∨ 20 < d) := by
        intro hc
        unfold idStep at heq
        rw [if_pos hc] at heq
        simp at heq
      omega
  | succ k ih =>
    intro d ms pb result st hk hreach hP
    rw [idLoop]
    split
    · rename_i out heq
      exact idStep_preserves api pos maxDepth st0 d ms pb result st hreach hP _ heq
    · rename_i ms2 pb2 r2 st2 heq
      have hd : ¬ (maxDepth < (d : Int) ∨ 20 < d) := by
        intro hc
        unfold idStep at heq
        rw [if_pos hc] at heq
        simp at heq
      exact ih (d + 1) ms2 pb2 r2 st2 (by omega) (IdReach.step hreach heq)
        (idStep_preserves api pos maxDepth st0 d ms pb result st hreach hP _ heq)

/-- Claim C4: with at least two legal root moves, the result returned by
`search` is either the untouched initial result (`none`, score 0, depth 0 —
no depth iteration committed) or was committed by a depth iteration of this
very run — reached by the loop from the enumerated root moves and the reset
state — whose root loop ran over every scored root move without an early
stop-break and which found the stop flag still unset at its end; an
iteration interrupted by `should_stop` never alters the returned result. -/
theorem c4_commit_contract {Pos : Type} (api : PosAPI Pos) (pos : Pos)
    (maxDepth : Int) (st : SState) (h2 : 2 ≤ (api.gen_legal pos).length) :
    (((searchFn api pos maxDepth st).1.bestMove = Move.none ∧
      (searchFn api pos maxDepth st).1.score = 0 ∧
      (searchFn api pos maxDepth st).1.depth = 0) ∨
     CommittedResult api pos maxDepth st (searchFn api pos maxDepth st).1) := by
  unfold searchFn
  cases hgl : api.gen_legal pos with
  | nil =>
    rw [hgl] at h2
    simp at h2
  | cons a tl =>
    cases tl with
    | nil =>
      rw [hgl] at h2
      simp at h2
    | cons b tl2 =>
      dsimp only
      have hreach : IdReach api pos maxDepth (api.gen_legal pos) st 1 (a :: b :: tl2)
          Move.none ⟨Move.none, VALUE_ZERO, 0, 0⟩ (initState st) := by
        rw [← hgl]
        apply IdReach.start
      exact idLoop_commit_inv api pos maxDepth st 21 1 (a :: b :: tl2) Move.none
        ⟨Move.none, VALUE_ZERO, 0, 0⟩ (initState st) (by omega) hreach
        (Or.inl ⟨rfl, rfl, rfl⟩)

theorem c4_commit_contract_witness :
    (((searchFn apiPair () 2 stBase).1.bestMove = Move.none ∧
      (searchFn apiPair () 2 stBase).1.score = 0 ∧
      (searchFn apiPair () 2 stBase).1.depth = 0) ∨
     CommittedResult apiPair () 2 stBase (searchFn apiPair () 2 stBase).1) :=
  c4_commit_contract apiPair () 2 stBase (by decide)
